import Mathlib

/-!
Shallow embedding of the `ethwallet` API client (`src/ethwallet/client.py`)
together with the collaborator operations its specification describes
(canonical parameter encoding, transport validation, callback verification).

The `client.py` module imports `HMACAuth` from `.auth`, `imap`/`urljoin`/
`quote` from `.compat` and `check_uri_security`/`encode_params` from
`.util`; those modules are not under `src/`, so their operations are
modelled from the specification where needed (each such definition carries
a doc comment starting with "Modelled from the spec:").
-/

namespace Ethwallet

/-- A Python value that can be passed as the `data` keyword argument of
`Client._request`: `None`, a string, or a dict of string keys/values. -/
inductive PyVal where
  | pynone
  | pystr (s : String)
  | pydict (entries : List (String × String))
  deriving DecidableEq

/-- Python truthiness for the modelled values: `None` is falsy, a string or
dict is truthy iff non-empty. -/
def PyVal.truthy : PyVal → Bool
  | .pynone => false
  | .pystr s => !s.isEmpty
  | .pydict l => !l.isEmpty

/-- `isinstance(data, dict)` for the modelled values. -/
def PyVal.isDict : PyVal → Bool
  | .pydict _ => true
  | _ => false

/-- The entries of a dict value (the other constructors never reach the
encoding branch of `_request`, which tests `isinstance(data, dict)` first). -/
def PyVal.dictEntries : PyVal → List (String × String)
  | .pydict l => l
  | _ => []

/-- Errors the client can raise: `ValueError` (missing credential in
`Client.__init__`), `InsecureTransportError` (transport validation) and
`MalformedCallbackError` (callback verification). -/
inductive ClientError where
  | valueError (msg : String)
  | insecureTransportError
  | malformedCallbackError
  deriving DecidableEq

/-- The value of the `verify` keyword argument handed to the `requests`
transport: either a boolean or a CA-bundle file path. -/
inductive VerifyOpt where
  | boolean (b : Bool)
  | path (p : String)
  deriving DecidableEq

/-- Python's `sep.join(pieces)`: the pieces concatenated with `sep` between
consecutive pieces (used by `_create_api_uri` and by parameter encoding). -/
def joinSep (sep : String) : List String → String
  | [] => ""
  | [a] => a
  | a :: b :: rest => a ++ sep ++ joinSep sep (b :: rest)

/-- Uppercase hexadecimal digit for a value below 16. -/
def hexChar (n : Nat) : Char :=
  (['0', '1', '2', '3', '4', '5', '6', '7', '8', '9',
    'A', 'B', 'C', 'D', 'E', 'F'].getD n '0')

/-- UTF-8 encoding of a character, as byte values. -/
def utf8Bytes (c : Char) : List Nat :=
  let n := c.toNat
  if n < 0x80 then [n]
  else if n < 0x800 then [0xC0 + n / 0x40, 0x80 + n % 0x40]
  else if n < 0x10000 then
    [0xE0 + n / 0x1000, 0x80 + (n / 0x40) % 0x40, 0x80 + n % 0x40]
  else
    [0xF0 + n / 0x40000, 0x80 + (n / 0x1000) % 0x40,
     0x80 + (n / 0x40) % 0x40, 0x80 + n % 0x40]

/-- A character `quote` leaves unescaped: ASCII alphanumerics, `_.-~` and
the default safe character `/`. -/
def quoteSafe (c : Char) : Bool :=
  c.isAlphanum || c = '_' || c = '.' || c = '-' || c = '~' || c = '/'

/-- Percent-quoting of one character: kept if safe, otherwise each UTF-8
byte becomes `%XX`. -/
def quoteChar (c : Char) : String :=
  if quoteSafe c then String.singleton c
  else String.join ((utf8Bytes c).map
    (fun b => String.mk ['%', hexChar (b / 16), hexChar (b % 16)]))

/-- Modelled from the spec: `quote` re-exported by the missing `compat`
module; "values are percent-encoded using a fixed, documented
character-escaping table". Standard percent-quoting with `/` safe. -/
def quote (s : String) : String := String.join (s.data.map quoteChar)

/-- Splits a character list at the first `://`, returning the text before
and after it. -/
def findSchemeSplit : List Char → Option (List Char × List Char)
  | [] => none
  | ':' :: '/' :: '/' :: rest => some ([], rest)
  | c :: rest =>
      match findSchemeSplit rest with
      | some (pre, post) => some (c :: pre, post)
      | none => none

/-- The scheme of a URI (text before `://`), if present. -/
def uriScheme (uri : String) : Option String :=
  match findSchemeSplit uri.data with
  | some (pre, _) => some (String.mk pre)
  | none => none

/-- The host of a URI: the text between `://` and the next `/`. -/
def uriHost (uri : String) : String :=
  match findSchemeSplit uri.data with
  | some (_, post) => String.mk (post.takeWhile (fun c => c ≠ '/'))
  | none => ""

/-- Resolution of a path reference `rel` against a base whose scheme and
post-scheme text are `scheme` and `rest`: a root-relative reference hangs
off the site root, any other off the base path minus its last segment. -/
def urljoinMerge (scheme rest : List Char) (rel : String) : String :=
  let host := rest.takeWhile (fun c => c ≠ '/')
  let path := rest.drop host.length
  let site := String.mk scheme ++ "://" ++ String.mk host
  let relStartsSlash := match rel.data with
    | '/' :: _ => true
    | _ => false
  if relStartsSlash then site ++ rel
  else
    let merged := if path.contains '/'
      then String.mk ((path.reverse.dropWhile (fun c => c ≠ '/')).reverse)
      else "/"
    site ++ merged ++ rel

/-- Modelled from the spec: `urljoin` re-exported by the missing `compat`
module; standard relative-reference resolution of `rel` against `base`
(empty reference keeps the base, absolute references are kept whole, path
references are merged against the base). -/
def urljoin (base rel : String) : String :=
  if rel = "" then base
  else if (findSchemeSplit rel.data).isSome then rel
  else
    match findSchemeSplit base.data with
    | none => rel
    | some (scheme, rest) => urljoinMerge scheme rest rel

/-- The string ends with a `/` character. -/
def endsWithSlash (s : String) : Prop := s.data.getLast? = some '/'

instance (s : String) : Decidable (endsWithSlash s) := by
  unfold endsWithSlash; infer_instance

/-- The base64 value of an alphabet character. -/
def b64Val (c : Char) : Option Nat :=
  if 'A' ≤ c ∧ c ≤ 'Z' then some (c.toNat - 65)
  else if 'a' ≤ c ∧ c ≤ 'z' then some (c.toNat - 97 + 26)
  else if '0' ≤ c ∧ c ≤ '9' then some (c.toNat - 48 + 52)
  else if c = '+' then some 62
  else if c = '/' then some 63
  else none

/-- Decodes a final base64 quantum of four characters, allowing `=`
padding in the last two positions. -/
def b64Group (a b c d : Char) : Option (List Nat) :=
  match b64Val a, b64Val b with
  | some i, some j =>
    if c = '=' ∧ d = '=' then some [i * 4 + j / 16]
    else
      match b64Val c with
      | some k =>
        if d = '=' then some [i * 4 + j / 16, (j % 16) * 16 + k / 4]
        else
          match b64Val d with
          | some l => some [i * 4 + j / 16, (j % 16) * 16 + k / 4, (k % 4) * 64 + l]
          | none => none
      | none => none
  | _, _ => none

/-- Decodes a base64 character sequence into byte values; `none` when the
input is not valid base64 (wrong length, bad character, early padding). -/
def b64Decode : List Char → Option (List Nat)
  | [] => some []
  | a :: b :: c :: d :: rest =>
      match rest with
      | [] => b64Group a b c d
      | _ =>
        match b64Val a, b64Val b, b64Val c, b64Val d, b64Decode rest with
        | some i, some j, some k, some l, some bs =>
            some ([i * 4 + j / 16, (j % 16) * 16 + k / 4, (k % 4) * 64 + l] ++ bs)
        | _, _, _, _, _ => none
  | _ => none

/-- Modelled from the spec: the callback wire encoding, "e.g. not valid
base64"; decodes a string from base64 to bytes or fails. -/
def base64Decode (s : String) : Option (List Nat) := b64Decode s.data

/-- Lexicographic less-or-equal on character lists, comparing code points. -/
def strLeBool : List Char → List Char → Bool
  | [], _ => true
  | _ :: _, [] => false
  | x :: xs, y :: ys =>
      if x.toNat < y.toNat then true
      else if y.toNat < x.toNat then false
      else strLeBool xs ys

/-- Lexicographic less-or-equal on strings. -/
def strLe (a b : String) : Prop := strLeBool a.data b.data = true

instance (a b : String) : Decidable (strLe a b) := by
  unfold strLe; infer_instance

/-- Ordering of parameter pairs by key, the sort order of canonical
parameter encoding. -/
def pairLe (a b : String × String) : Prop := strLe a.1 b.1

instance : DecidableRel pairLe := fun a b =>
  inferInstanceAs (Decidable (strLe a.1 b.1))

/-- Modelled from the spec: `encode_params` from the missing `util` module;
"parameters are encoded as an ordered sequence of `key=value` pairs joined
by `&`, where keys are sorted lexicographically before joining", with
values percent-encoded. -/
def encode_params (params : List (String × String)) : String :=
  joinSep "&"
    ((List.insertionSort pairLe params).map (fun kv => kv.1 ++ "=" ++ quote kv.2))

/-- Modelled from the spec: `check_uri_security` from the missing `util`
module; "rejects any base endpoint whose scheme is not the encrypted,
authenticated transport scheme (reject plaintext transport outright — this
is a hard fail, not a warning)", returning the base URI otherwise. -/
def check_uri_security (uri : String) : Except ClientError String :=
  if uriScheme uri = some "https" then .ok uri
  else .error .insecureTransportError

/-- The process-wide trust material: pinned CA certificate and callback
public key. -/
structure TrustAnchor where
  ca_certificate : String
  callback_public_key : String
  deriving DecidableEq

/-- Modelled from the spec: the callback verification operation
(`client.py` only shows its `cached_callback_public_key` slot);
"`verify(trust_anchor, payload, signature) -> bool`, never throws for a
well-formed-but-invalid signature (returns false), but fails with
`MalformedCallbackError` if `payload` or `signature` cannot be decoded from
their expected wire encoding". The asymmetric primitive is the `check`
parameter (key → payload bytes → signature bytes → matches). -/
def verify_callback (check : String → List Nat → List Nat → Bool)
    (anchor : TrustAnchor) (payload signature : String) :
    Except ClientError Bool :=
  match base64Decode payload, base64Decode signature with
  | some p, some s => .ok (check anchor.callback_public_key p s)
  | _, _ => .error .malformedCallbackError

/-- `ETHCLIENT_CRT_PATH`: the pinned CA bundle path, relative to the
installed module directory. -/
def ETHCLIENT_CRT_PATH (moduleDir : String) : String :=
  moduleDir ++ "/ca-ethwallet.crt"

/-- `ETHCLIENT_CALLBACK_PUBLIC_KEY_PATH`: the callback public key path,
relative to the installed module directory. -/
def ETHCLIENT_CALLBACK_PUBLIC_KEY_PATH (moduleDir : String) : String :=
  moduleDir ++ "/ethwallet-callback.pub"

/-- The `Client` instance state set by `Client.__init__`. -/
structure Client where
  api_key : String
  api_secret : String
  BASE_API_URI : String
  API_VERSION : String
  deriving DecidableEq

/-- The class attribute `Client.VERIFY_SSL = True` (`client.py` line 34);
nothing in `client.py` ever assigns it. -/
def Client.VERIFY_SSL : Bool := true

/-- The class attribute `Client.API_VERSION = '2016-05-17'`, the default
when no `api_version` is passed to the constructor. -/
def Client.API_VERSION_default : String := "2016-05-17"

/-- `Client.__init__`: rejects a missing (empty) `api_key` or `api_secret`
with `ValueError`, validates the base URI with `check_uri_security` and
stores the result as `BASE_API_URI`. -/
def Client.init (api_key api_secret base_api_uri : String)
    (api_version : Option String) : Except ClientError Client :=
  if api_key = "" then .error (.valueError "Missing api_key.")
  else if api_secret = "" then .error (.valueError "Missing api_secret.")
  else
    match check_uri_security base_api_uri with
    | .error e => .error e
    | .ok base =>
        .ok { api_key, api_secret, BASE_API_URI := base,
              API_VERSION := api_version.getD Client.API_VERSION_default }

/-- `Client._create_api_uri`: appends `'/'` to the parts tuple, quotes each
part, joins them with `'/'` and resolves against `BASE_API_URI`. -/
def _create_api_uri (base : String) (parts : List String) : String :=
  urljoin base (joinSep "/" ((parts ++ ["/"]).map quote))

/-- The `kwargs.setdefault('verify', ...)` step of `_request`: fills in the
pinned CA path (verification on) or `False` (verification off) when the
caller passed no `verify` keyword. -/
def setdefaultVerify (vssl : Bool) (crt : String) (kw : Option VerifyOpt) :
    Option VerifyOpt :=
  match kw with
  | some v => some v
  | none => some (if vssl then .path crt else .boolean false)

/-- The `kwargs.update(verify=self.VERIFY_SSL)` step of `_request`:
overwrites whatever `verify` value is present with the boolean flag. -/
def updateVerify (vssl : Bool) (_kw : Option VerifyOpt) : Option VerifyOpt :=
  some (.boolean vssl)

/-- The `verify` value `_request` hands to the transport: the setdefault
step followed by the unconditional update step. -/
def requestVerify (vssl : Bool) (crt : String) (kw : Option VerifyOpt) :
    VerifyOpt :=
  (updateVerify vssl (setdefaultVerify vssl crt kw)).getD (.boolean vssl)

/-- The `data` transformation of `_request`: a truthy dict is replaced by
its canonical encoding, everything else is forwarded unchanged. -/
def requestData (data : PyVal) : PyVal :=
  if data.truthy && data.isDict then .pystr (encode_params data.dictEntries)
  else data

/-- What `_request` hands to the `requests` session method: HTTP method,
fully-qualified URI, body data and the `verify` option. -/
structure HttpRequest where
  method : String
  uri : String
  data : PyVal
  verify : VerifyOpt
  deriving DecidableEq

/-- `Client._request`: builds the endpoint URI from the relative path
parts, canonically encodes a truthy dict body, computes the `verify`
option and dispatches through the session. -/
def Client._request (c : Client) (moduleDir method : String)
    (relative_path_parts : List String) (data : PyVal)
    (verifyKw : Option VerifyOpt) : HttpRequest :=
  { method
    uri := _create_api_uri c.BASE_API_URI relative_path_parts
    data := requestData data
    verify := requestVerify Client.VERIFY_SSL (ETHCLIENT_CRT_PATH moduleDir) verifyKw }

/-- `Client._get`. -/
def Client._get (c : Client) (moduleDir : String) (parts : List String)
    (data : PyVal) (verifyKw : Option VerifyOpt) : HttpRequest :=
  c._request moduleDir "get" parts data verifyKw

/-- `Client._post`. -/
def Client._post (c : Client) (moduleDir : String) (parts : List String)
    (data : PyVal) (verifyKw : Option VerifyOpt) : HttpRequest :=
  c._request moduleDir "post" parts data verifyKw

/-- `Client._put`. -/
def Client._put (c : Client) (moduleDir : String) (parts : List String)
    (data : PyVal) (verifyKw : Option VerifyOpt) : HttpRequest :=
  c._request moduleDir "put" parts data verifyKw

/-- `Client._delete`. -/
def Client._delete (c : Client) (moduleDir : String) (parts : List String)
    (data : PyVal) (verifyKw : Option VerifyOpt) : HttpRequest :=
  c._request moduleDir "delete" parts data verifyKw

/-- `Client.create_address`: `POST v1/addresses` with no body. -/
def Client.create_address (c : Client) (moduleDir : String) : HttpRequest :=
  c._post moduleDir ["v1", "addresses"] .pynone none

/-- `Client.send`: `POST v1/send` with the amount/address parameter dict. -/
def Client.send (c : Client) (moduleDir amount address : String) :
    HttpRequest :=
  c._post moduleDir ["v1", "send"]
    (.pydict [("amount", amount), ("address", address)]) none

/-- A concrete client used by witness statements. -/
def cDemo : Client :=
  { api_key := "k1", api_secret := "s1",
    BASE_API_URI := "https://api.example.com/",
    API_VERSION := "2016-05-17" }

/-- A concrete trust anchor used by witness statements. -/
def anchorDemo : TrustAnchor :=
  { ca_certificate := "CA", callback_public_key := "PK" }

instance {ε α : Type} [DecidableEq ε] [DecidableEq α] :
    DecidableEq (Except ε α) := fun a b =>
  match a, b with
  | .error e, .error f =>
      match decEq e f with
      | isTrue h => isTrue (h ▸ rfl)
      | isFalse h => isFalse (fun hh => h (Except.error.inj hh))
  | .ok x, .ok y =>
      match decEq x y with
      | isTrue h => isTrue (h ▸ rfl)
      | isFalse h => isFalse (fun hh => h (Except.ok.inj hh))
  | .error _, .ok _ => isFalse (fun hh => Except.noConfusion hh)
  | .ok _, .error _ => isFalse (fun hh => Except.noConfusion hh)

/-! Helper lemmas. -/

theorem char_toNat_inj {a b : Char} (h : a.toNat = b.toNat) : a = b := by
  have hh := congrArg Char.ofNat h
  rwa [Char.ofNat_toNat, Char.ofNat_toNat] at hh

theorem strLeBool_total : ∀ a b : List Char,
    strLeBool a b = true ∨ strLeBool b a = true
  | [], [] => Or.inl rfl
  | [], _ :: _ => Or.inl rfl
  | _ :: _, [] => Or.inr rfl
  | x :: xs, y :: ys => by
      by_cases h1 : x.toNat < y.toNat
      · exact Or.inl (by simp [strLeBool, h1])
      · by_cases h2 : y.toNat < x.toNat
        · exact Or.inr (by simp [strLeBool, h1, h2])
        · rcases strLeBool_total xs ys with h | h
          · exact Or.inl (by simp [strLeBool, h1, h2, h])
          · exact Or.inr (by simp [strLeBool, h1, h2, h])

theorem strLeBool_trans : ∀ a b c : List Char,
    strLeBool a b = true → strLeBool b c = true → strLeBool a c = true
  | [], _, _, _, _ => rfl
  | _ :: _, [], _, h, _ => by simp [strLeBool] at h
  | _ :: _, _ :: _, [], _, h => by simp [strLeBool] at h
  | x :: xs, y :: ys, z :: zs, h1, h2 => by
      simp only [strLeBool] at h1 h2 ⊢
      split_ifs at h1 h2 ⊢ <;>
        first
          | rfl
          | omega
          | exact strLeBool_trans xs ys zs h1 h2

theorem strLeBool_antisymm : ∀ a b : List Char,
    strLeBool a b = true → strLeBool b a = true → a = b
  | [], [], _, _ => rfl
  | [], _ :: _, _, h => by simp [strLeBool] at h
  | _ :: _, [], h, _ => by simp [strLeBool] at h
  | x :: xs, y :: ys, h1, h2 => by
      simp only [strLeBool] at h1 h2
      split_ifs at h1 h2 <;>
        first
          | omega
          | exact congrArg₂ List.cons (char_toNat_inj (by omega))
              (strLeBool_antisymm xs ys h1 h2)

instance : IsTotal (String × String) pairLe :=
  ⟨fun a b => strLeBool_total a.1.data b.1.data⟩

instance : IsTrans (String × String) pairLe :=
  ⟨fun a b c => strLeBool_trans a.1.data b.1.data c.1.data⟩

instance : IsAntisymm String strLe :=
  ⟨fun a b h1 h2 => String.ext (strLeBool_antisymm a.data b.data h1 h2)⟩

theorem eq_of_perm_of_map_eq {α β : Type} (f : α → β) :
    ∀ (l1 l2 : List α), l1.Perm l2 → l1.map f = l2.map f →
      (l1.map f).Nodup → l1 = l2 := by
  intro l1
  induction l1 with
  | nil =>
      intro l2 hp _ _
      exact (hp.symm.eq_nil).symm
  | cons a t1 ih =>
      intro l2 hp hmap hnd
      cases l2 with
      | nil => exact absurd hp.eq_nil (List.cons_ne_nil a t1)
      | cons b t2 =>
          simp only [List.map_cons] at hmap
          injection hmap with hfab hmaptl
          have hndb : (List.map f (b :: t2)).Nodup := by
            have : List.map f (a :: t1) = List.map f (b :: t2) := by
              simp only [List.map_cons, hfab, hmaptl]
            exact this ▸ hnd
          have hab : a = b := by
            have hmem : a ∈ b :: t2 := hp.mem_iff.mp (List.mem_cons_self a t1)
            rcases List.mem_cons.mp hmem with h | h
            · exact h
            · exfalso
              have hin : f a ∈ t2.map f := List.mem_map_of_mem f h
              rw [hfab] at hin
              exact (List.nodup_cons.mp (by simpa using hndb)).1 hin
          subst hab
          have hp2 : t1.Perm t2 := hp.cons_inv
          have hndt : (t1.map f).Nodup := (List.nodup_cons.mp (by simpa using hnd)).2
          rw [ih t2 hp2 hmaptl hndt]

theorem insertionSort_key_eq (l1 l2 : List (String × String))
    (hp : l1.Perm l2) (hnd : (l1.map Prod.fst).Nodup) :
    List.insertionSort pairLe l1 = List.insertionSort pairLe l2 := by
  have p1 := List.perm_insertionSort pairLe l1
  have p2 := List.perm_insertionSort pairLe l2
  have hperm : (List.insertionSort pairLe l1).Perm (List.insertionSort pairLe l2) :=
    p1.trans (hp.trans p2.symm)
  have s1 := List.sorted_insertionSort pairLe l1
  have s2 := List.sorted_insertionSort pairLe l2
  have sm1 : List.Sorted strLe ((List.insertionSort pairLe l1).map Prod.fst) :=
    List.Pairwise.map Prod.fst (fun _ _ h => h) s1
  have sm2 : List.Sorted strLe ((List.insertionSort pairLe l2).map Prod.fst) :=
    List.Pairwise.map Prod.fst (fun _ _ h => h) s2
  have hnd1 : ((List.insertionSort pairLe l1).map Prod.fst).Nodup :=
    List.Perm.nodup ((p1.map Prod.fst).symm) hnd
  have hmap : (List.insertionSort pairLe l1).map Prod.fst
      = (List.insertionSort pairLe l2).map Prod.fst :=
    List.eq_of_perm_of_sorted (hperm.map Prod.fst) sm1 sm2
  exact eq_of_perm_of_map_eq Prod.fst _ _ hperm hmap hnd1

theorem check_uri_security_error (b : String) (e : ClientError)
    (h : check_uri_security b = .error e) : e = .insecureTransportError := by
  unfold check_uri_security at h
  by_cases hs : uriScheme b = some "https"
  · simp [hs] at h
  · simp [hs] at h
    exact h.symm

theorem joinSep_append_single (sep x : String) : ∀ (l : List String), l ≠ [] →
    joinSep sep (l ++ [x]) = joinSep sep l ++ sep ++ x
  | [], h => absurd rfl h
  | [a], _ => rfl
  | a :: b :: rest, _ => by
      have ih := joinSep_append_single sep x (b :: rest) (by simp)
      simp only [List.cons_append, List.append_eq, joinSep] at ih ⊢
      rw [ih, ← String.append_assoc, ← String.append_assoc]

theorem endsWithSlash_append (a b : String) (h : endsWithSlash b) :
    endsWithSlash (a ++ b) := by
  unfold endsWithSlash at h ⊢
  rw [String.data_append, List.getLast?_append, h]
  rfl

theorem urljoinMerge_append (scheme rest : List Char) (rel : String) :
    ∃ pre : String, urljoinMerge scheme rest rel = pre ++ rel := by
  simp only [urljoinMerge]
  split_ifs <;> exact ⟨_, rfl⟩

theorem urljoin_endsWithSlash (base rel : String) (h : endsWithSlash rel) :
    endsWithSlash (urljoin base rel) := by
  have hne : rel ≠ "" := by
    intro he
    subst he
    simp [endsWithSlash] at h
  unfold urljoin
  rw [if_neg hne]
  by_cases h2 : (findSchemeSplit rel.data).isSome
  · rw [if_pos h2]
    exact h
  · rw [if_neg h2]
    rcases h3 : findSchemeSplit base.data with _ | ⟨scheme, rest⟩
    · exact h
    · obtain ⟨pre, hpre⟩ := urljoinMerge_append scheme rest rel
      show endsWithSlash (urljoinMerge scheme rest rel)
      rw [hpre]
      exact endsWithSlash_append pre rel h

/-! Claim theorems. -/

/-- C1: the claim fails on the code. `_request` first set-defaults `verify`
to the pinned CA path `ETHCLIENT_CRT_PATH`, but the following
`kwargs.update(verify=self.VERIFY_SSL)` unconditionally overwrites it, so
with `VERIFY_SSL = True` every dispatched request carries `verify = True`
(the boolean, i.e. the system default trust store), never the pinned CA
certificate path. -/
theorem request_verify_is_boolean_not_pinned (c : Client)
    (moduleDir method : String) (parts : List String) (data : PyVal)
    (kw : Option VerifyOpt) :
    (c._request moduleDir method parts data kw).verify
      = VerifyOpt.boolean true
    ∧ (c._request moduleDir method parts data kw).verify
        ≠ VerifyOpt.path (ETHCLIENT_CRT_PATH moduleDir) := by
  have hv : (c._request moduleDir method parts data kw).verify
      = VerifyOpt.boolean true := rfl
  refine ⟨hv, ?_⟩
  rw [hv]
  simp

/-- C2: with non-empty credentials, construction fails with
`InsecureTransportError` for every base URI whose scheme is not `https`,
and succeeds for an `https` base URI with a well-formed host, storing the
validated URI as `BASE_API_URI`. -/
theorem init_enforces_https (k s b : String) (v : Option String)
    (hk : k ≠ "") (hs : s ≠ "") :
    (uriScheme b ≠ some "https" →
      Client.init k s b v = .error .insecureTransportError)
    ∧ (uriScheme b = some "https" → uriHost b ≠ "" →
        ∃ c, Client.init k s b v = .ok c ∧ c.BASE_API_URI = b) := by
  constructor
  · intro hsch
    simp [Client.init, hk, hs, check_uri_security, hsch]
  · intro hsch _
    exact ⟨{ api_key := k, api_secret := s, BASE_API_URI := b,
             API_VERSION := v.getD Client.API_VERSION_default },
           by simp [Client.init, hk, hs, check_uri_security, hsch], rfl⟩

/-- C2 witness: a plaintext base URI is rejected and an `https` one is
accepted and stored. -/
theorem init_enforces_https_witness :
    Client.init "k1" "s1" "http://h/" none = .error .insecureTransportError
    ∧ ∃ c, Client.init "k1" "s1" "https://h/" none = .ok c
        ∧ c.BASE_API_URI = "https://h/" :=
  ⟨(init_enforces_https "k1" "s1" "http://h/" none (by decide) (by decide)).1
      (by decide),
   (init_enforces_https "k1" "s1" "https://h/" none (by decide) (by decide)).2
      (by decide) (by decide)⟩

/-- C3: callback verification returns the boolean verdict of the
asymmetric primitive (in particular `false`, without throwing, for a
well-formed but non-matching signature) whenever payload and signature
decode from their wire encoding, and fails with `MalformedCallbackError`
whenever either does not decode. -/
theorem verify_callback_total_on_wellformed
    (check : String → List Nat → List Nat → Bool) (anchor : TrustAnchor)
    (payload signature : String) :
    (∀ p s, base64Decode payload = some p → base64Decode signature = some s →
        verify_callback check anchor payload signature
          = .ok (check anchor.callback_public_key p s))
    ∧ (base64Decode payload = none ∨ base64Decode signature = none →
        verify_callback check anchor payload signature
          = .error .malformedCallbackError) := by
  constructor
  · intro p s hp hs
    unfold verify_callback
    rw [hp, hs]
  · intro h
    rcases h with h | h
    · rcases hsig : base64Decode signature with _ | s <;>
        simp [verify_callback, h, hsig]
    · rcases hpay : base64Decode payload with _ | p <;>
        simp [verify_callback, h, hpay]

/-- C3 witness: a decodable payload/signature pair yields `ok false` under
a non-matching primitive, and an undecodable payload yields
`MalformedCallbackError`. -/
theorem verify_callback_total_on_wellformed_witness :
    verify_callback (fun _ _ _ => false) anchorDemo "aGk=" "c2ln" = .ok false
    ∧ verify_callback (fun _ _ _ => false) anchorDemo "!!" "c2ln"
        = .error .malformedCallbackError :=
  ⟨(verify_callback_total_on_wellformed (fun _ _ _ => false) anchorDemo
      "aGk=" "c2ln").1 [104, 105] [115, 105, 103] (by decide) (by decide),
   (verify_callback_total_on_wellformed (fun _ _ _ => false) anchorDemo
      "!!" "c2ln").2 (Or.inl (by decide))⟩

/-- C4: an empty `api_key` or `api_secret` makes construction fail with a
`ValueError` and no client is produced; with both non-empty, any
construction failure is not a credential error. -/
theorem init_requires_credentials (k s b : String) (v : Option String) :
    (k = "" ∨ s = "" →
      ∃ msg, Client.init k s b v = .error (.valueError msg))
    ∧ (k ≠ "" → s ≠ "" → ∀ e, Client.init k s b v = .error e →
        ∀ msg, e ≠ .valueError msg) := by
  constructor
  · rintro (hk | hs)
    · exact ⟨"Missing api_key.", by simp [Client.init, hk]⟩
    · by_cases hk : k = ""
      · exact ⟨"Missing api_key.", by simp [Client.init, hk]⟩
      · exact ⟨"Missing api_secret.", by simp [Client.init, hk, hs]⟩
  · intro hk hs e he msg
    simp only [Client.init, if_neg hk, if_neg hs] at he
    rcases hcheck : check_uri_security b with e0 | base
    · rw [hcheck] at he
      injection he with he2
      rw [← he2, check_uri_security_error b e0 hcheck]
      intro hcontra
      exact ClientError.noConfusion hcontra
    · rw [hcheck] at he
      exact Except.noConfusion he

/-- C4 witness: an empty key is rejected with a `ValueError`, and the only
non-credential failure shape is distinct from `ValueError`. -/
theorem init_requires_credentials_witness :
    (∃ msg, Client.init "" "s1" "https://h/" none = .error (.valueError msg))
    ∧ ClientError.insecureTransportError ≠ .valueError "Missing api_key." :=
  ⟨(init_requires_credentials "" "s1" "https://h/" none).1 (Or.inl rfl),
   (init_requires_credentials "k1" "s1" "http://h/" none).2 (by decide)
      (by decide) .insecureTransportError (by decide) "Missing api_key."⟩

/-- C5: canonical parameter encoding is insertion-order independent: two
parameter lists that are permutations of each other with pairwise distinct
keys (as in a Python dict) encode to byte-identical output. -/
theorem encode_params_insertion_order_independent
    (l1 l2 : List (String × String)) (hp : l1.Perm l2)
    (hnd : (l1.map Prod.fst).Nodup) :
    encode_params l1 = encode_params l2 := by
  unfold encode_params
  rw [insertionSort_key_eq l1 l2 hp hnd]

/-- C5 witness: the two insertion orders of the end-to-end scenario params
encode identically. -/
theorem encode_params_insertion_order_independent_witness :
    encode_params [("amount", "5"), ("address", "0xabc")]
      = encode_params [("address", "0xabc"), ("amount", "5")] :=
  encode_params_insertion_order_independent
    [("amount", "5"), ("address", "0xabc")]
    [("address", "0xabc"), ("amount", "5")] (by decide) (by decide)

/-- C6: the encoded key sequence is always sorted lexicographically, and
the end-to-end scenario params encode to exactly
`address=0xabc&amount=5`. -/
theorem encode_params_sorts_keys (l : List (String × String)) :
    List.Sorted strLe ((List.insertionSort pairLe l).map Prod.fst)
    ∧ encode_params [("amount", "5"), ("address", "0xabc")]
        = "address=0xabc&amount=5" :=
  ⟨List.Pairwise.map Prod.fst (fun _ _ h => h)
      (List.sorted_insertionSort pairLe l),
   by decide⟩

/-- C7: disabling verification is never the silent default: the class flag
`VERIFY_SSL` is `True`, `client.py` never assigns it, and every request of
a default-constructed client is dispatched with the `verify` option set to
`True`, never `False`. -/
theorem default_verify_ssl_enabled (c : Client) (moduleDir method : String)
    (parts : List String) (data : PyVal) (kw : Option VerifyOpt) :
    Client.VERIFY_SSL = true
    ∧ (c._request moduleDir method parts data kw).verify
        = VerifyOpt.boolean true
    ∧ (c._request moduleDir method parts data kw).verify
        ≠ VerifyOpt.boolean false := by
  refine ⟨rfl, rfl, ?_⟩
  intro h
  have hv : (c._request moduleDir method parts data kw).verify
      = VerifyOpt.boolean true := rfl
  rw [hv] at h
  exact Bool.noConfusion (VerifyOpt.boolean.inj h)

/-- C8: `send(amount, address)` issues a POST whose endpoint is built from
the relative path parts `v1`, `send` resolved against the validated base
URI, and whose body is the canonical encoding of exactly the parameter
dict with keys `amount` and `address` bound to the given values. -/
theorem send_posts_v1_send (c : Client) (moduleDir amount address : String) :
    (c.send moduleDir amount address).method = "post"
    ∧ (c.send moduleDir amount address).uri
        = urljoin c.BASE_API_URI (joinSep "/" (List.map quote ["v1", "send", "/"]))
    ∧ (c.send moduleDir amount address).data
        = .pystr (encode_params [("amount", amount), ("address", address)]) :=
  ⟨rfl, rfl, rfl⟩

/-- C9 counterexample: at parts `["v1", "send"]` the code does not append
one trailing `/` to the quoted join: it resolves `v1/send//`, not
`v1/send/`, against the base. -/
theorem create_api_uri_counterexample :
    _create_api_uri "https://api.example.com/" ["v1", "send"]
      ≠ urljoin "https://api.example.com/"
          (joinSep "/" (List.map quote ["v1", "send"]) ++ "/") := by
  decide

/-- C9 amended: `_create_api_uri` percent-quotes each part and appends `/`
as an additional part before joining with `/`, so the resolved relative
reference is the quoted join followed by `//`; consequently every endpoint
URI the client requests ends with a `/`. -/
theorem create_api_uri_appends_slash_part (base : String)
    (parts : List String) (h : parts ≠ []) :
    _create_api_uri base parts
      = urljoin base (joinSep "/" (parts.map quote) ++ "//")
    ∧ endsWithSlash (_create_api_uri base parts) := by
  have hq : quote "/" = "/" := by decide
  have hmap : (parts ++ ["/"]).map quote = parts.map quote ++ ["/"] := by
    rw [List.map_append]
    simp [hq]
  have hne : parts.map quote ≠ [] := by
    intro hmm
    exact h (List.map_eq_nil_iff.mp hmm)
  have hrel : joinSep "/" ((parts ++ ["/"]).map quote)
      = joinSep "/" (parts.map quote) ++ "//" := by
    rw [hmap, joinSep_append_single "/" "/" (parts.map quote) hne,
        String.append_assoc]
    rfl
  constructor
  · unfold _create_api_uri
    rw [hrel]
  · unfold _create_api_uri
    rw [hrel]
    apply urljoin_endsWithSlash
    apply endsWithSlash_append
    rfl

/-- C9 witness: the amended description holds at the `v1/send` endpoint. -/
theorem create_api_uri_appends_slash_part_witness :
    _create_api_uri "https://h/" ["v1", "send"]
      = urljoin "https://h/" (joinSep "/" (List.map quote ["v1", "send"]) ++ "//")
    ∧ endsWithSlash (_create_api_uri "https://h/" ["v1", "send"]) :=
  create_api_uri_appends_slash_part "https://h/" ["v1", "send"] (by decide)

/-- C10: `_request` canonically encodes the body exactly when the `data`
keyword argument is a non-empty dict; `None`, an empty dict, or a non-dict
value is forwarded to the transport unencoded. -/
theorem request_encodes_only_nonempty_dict (c : Client)
    (moduleDir method : String) (parts : List String) (data : PyVal)
    (kw : Option VerifyOpt) :
    (∀ l, data = .pydict l → l ≠ [] →
        (c._request moduleDir method parts data kw).data
          = .pystr (encode_params l))
    ∧ (data = .pynone ∨ data = .pydict [] ∨ data.isDict = false →
        (c._request moduleDir method parts data kw).data = data) := by
  constructor
  · rintro l rfl hl
    cases l with
    | nil => exact absurd rfl hl
    | cons a t =>
        simp [Client._request, requestData, PyVal.truthy, PyVal.isDict,
              PyVal.dictEntries]
  · intro h
    rcases h with rfl | rfl | hnd
    · rfl
    · rfl
    · cases data with
      | pynone => rfl
      | pystr s =>
          simp [Client._request, requestData, PyVal.isDict]
      | pydict l => simp [PyVal.isDict] at hnd

/-- C10 witness: a non-empty dict body is encoded, a `None` body is
forwarded unchanged. -/
theorem request_encodes_only_nonempty_dict_witness :
    (cDemo._request "/m" "post" ["v1"] (.pydict [("a", "b")]) none).data
      = .pystr (encode_params [("a", "b")])
    ∧ (cDemo._request "/m" "post" ["v1"] .pynone none).data = .pynone :=
  ⟨(request_encodes_only_nonempty_dict cDemo "/m" "post" ["v1"]
      (.pydict [("a", "b")]) none).1 [("a", "b")] rfl (by decide),
   (request_encodes_only_nonempty_dict cDemo "/m" "post" ["v1"]
      .pynone none).2 (Or.inl rfl)⟩

end Ethwallet
